import Mathlib

/-!
# AgriNova Labs contact-form backend — verification development

Shallow embedding of the Netlify serverless contact-form backend:
`netlify/functions/utils/validator.js`, `netlify/functions/zoho/auth.js`,
`netlify/functions/zoho/mailer.js` and `netlify/functions/contact.js`.

Strings manipulated character-by-character by the source (form fields,
client addresses) are embedded as `List Char`; fixed message strings stay
as `String` tags.  Times are `Int` milliseconds (`Date.now()` values).
Network effects are passed in explicitly: each function that performs an
HTTP call takes the outcome of that call as a parameter.
-/

set_option maxRecDepth 10000

namespace AgriNova

/-- ASCII whitespace, as matched by the regex class `\s` and removed by
`String.prototype.trim` for the inputs this system handles. -/
def isJsSpace (c : Char) : Bool :=
  c == ' ' || c == '\t' || c == '\n' || c == '\r' || c == '\x0b' || c == '\x0c'

/-- One character of the regex class `[^\s@]` used by `EMAIL_RE`. -/
def okChar (c : Char) : Bool :=
  !(isJsSpace c) && !(c == '@')

/-- `String.prototype.trim()`: drop leading and trailing whitespace. -/
def trimList (s : List Char) : List Char :=
  ((s.dropWhile isJsSpace).reverse.dropWhile isJsSpace).reverse

/-- Split a string at its first `@`, returning the parts before and after.
Returns `none` when the string has no `@`.  Used to run `EMAIL_RE`. -/
def splitAtAmp : List Char → Option (List Char × List Char)
  | [] => none
  | c :: cs =>
    if c = '@' then some ([], cs)
    else
      match splitAtAmp cs with
      | none => none
      | some (l, r) => some (c :: l, r)

/-- Scanner for the regex tail `\.[^\s@]{2,}$` starting strictly after the
first character of the domain: succeeds when some `.` in the list has at
least two characters after it. -/
def tailHasDot : List Char → Bool
  | [] => false
  | c :: cs => (c == '.' && decide (2 ≤ cs.length)) || tailHasDot cs

/-- The part of `EMAIL_RE` after the `@`: `[^\s@]+\.[^\s@]{2,}$`, assuming
all characters were already checked against `[^\s@]`. -/
def domainPart : List Char → Bool
  | [] => false
  | _ :: cs => tailHasDot cs

/-- `EMAIL_RE = /^[^\s@]+@[^\s@]+\.[^\s@]{2,}$/` from `validator.js`,
compiled to an executable matcher: the string splits at its unique `@`
into a non-empty local part and a domain containing a `.` with at least
two characters after it, all characters drawn from `[^\s@]`. -/
def EMAIL_RE (s : List Char) : Bool :=
  match splitAtAmp s with
  | none => false
  | some (l, r) =>
    decide (l ≠ []) && l.all okChar && r.all okChar && domainPart r

/-- The email pattern as the specification words it: `local-part@domain.tld`
where local part and domain contain no whitespace or `@`, and the final
label (the part after the dot) has at least 2 characters. -/
def specEmailPattern (s : List Char) : Prop :=
  ∃ l d t : List Char,
    s = l ++ '@' :: (d ++ '.' :: t) ∧
    l ≠ [] ∧ d ≠ [] ∧ 2 ≤ t.length ∧
    l.all okChar = true ∧ d.all okChar = true ∧ t.all okChar = true

/-- Error string for the first-name rule in `validator.js`. -/
def firstNameErr : String := "First name must be at least 2 characters."

/-- Error string for the email rule in `validator.js`. -/
def emailErr : String := "A valid email address is required."

/-- Error string for the message lower bound in `validator.js`. -/
def msgShortErr : String := "Message must be at least 10 characters."

/-- Error string for the message upper bound in `validator.js`. -/
def msgLongErr : String := "Message must not exceed 5,000 characters."

/-- `validate({firstName, email, message})` from `validator.js`: pushes the
four error strings in order, each under its own condition.  JS falsiness
of a string field (`!firstName`) is emptiness here, since the handler
defaults every absent field to the empty string. -/
def validate (firstName email message : List Char) : List String :=
  (if firstName = [] ∨ (trimList firstName).length < 2 then [firstNameErr] else []) ++
  (if email = [] ∨ EMAIL_RE (trimList email) = false then [emailErr] else []) ++
  (if message = [] ∨ (trimList message).length < 10 then [msgShortErr] else []) ++
  (if message ≠ [] ∧ 5000 < (trimList message).length then [msgLongErr] else [])

-- ── Rate limiter (contact.js) ────────────────────────────────────

/-- `RATE_WINDOW_MS = 15 * 60 * 1000` from `contact.js`. -/
def RATE_WINDOW_MS : Int := 15 * 60 * 1000

/-- `RATE_MAX = 10` from `contact.js`. -/
def RATE_MAX : Nat := 10

/-- One value of the `ipLog` map: `{count, windowStart}`. -/
structure RLEntry where
  count : Nat
  windowStart : Int
deriving DecidableEq

/-- The `ipLog` map, embedded as an association list keyed by the client
address string. -/
def IpLog := List (List Char × RLEntry)

instance : DecidableEq IpLog := by
  unfold IpLog
  infer_instance

/-- `ipLog.get(ip)`. -/
def logGet (log : IpLog) (ip : List Char) : Option RLEntry :=
  match log with
  | [] => none
  | (k, v) :: rest => if k = ip then some v else logGet rest ip

/-- `ipLog.set(ip, v)`: replace the entry for `ip`, or append it. -/
def logSet (log : IpLog) (ip : List Char) (v : RLEntry) : IpLog :=
  match log with
  | [] => [(ip, v)]
  | (k, w) :: rest => if k = ip then (ip, v) :: rest else (k, w) :: logSet rest ip v

/-- `isRateLimited(ip)` from `contact.js`, with the clock and the mutable
`ipLog` passed explicitly; returns the decision and the updated map. -/
def isRateLimited (now : Int) (ip : List Char) (log : IpLog) : Bool × IpLog :=
  let entry := (logGet log ip).getD ⟨0, now⟩
  if RATE_WINDOW_MS < now - entry.windowStart then
    (false, logSet log ip ⟨1, now⟩)
  else if RATE_MAX ≤ entry.count then
    (true, log)
  else
    (false, logSet log ip ⟨entry.count + 1, entry.windowStart⟩)

/-- Run `isRateLimited` for one key at each clock value of a list in turn,
threading the map; returns the list of decisions and the final map. -/
def runCalls (ip : List Char) : List Int → IpLog → List Bool × IpLog
  | [], log => ([], log)
  | t :: ts, log =>
    let r := isRateLimited t ip log
    let rest := runCalls ip ts r.2
    (r.1 :: rest.1, rest.2)

-- ── Token provider (auth.js) ─────────────────────────────────────

/-- JS truthiness of an optional string value (absent, or empty, is falsy). -/
def truthyStr : Option String → Bool
  | none => false
  | some s => !(s == "")

/-- JS truthiness of an optional number value (absent, or zero, is falsy). -/
def truthyInt : Option Int → Bool
  | none => false
  | some v => !(v == 0)

/-- The module-level cache of `auth.js`: `_cachedToken` and `_tokenExpiry`. -/
structure TokenCache where
  cachedToken : Option String
  tokenExpiry : Option Int
deriving DecidableEq

/-- Body of a token-endpoint response that resolved (HTTP 2xx). -/
structure TokenResponse where
  access_token : Option String
  expires_in : Option Int
deriving DecidableEq

/-- Outcome of the `axios.post` to the token endpoint: a resolved response
body, or a rejection (non-2xx status or network failure) with its
diagnostic detail. -/
inductive ExchangeOutcome
  | success (data : TokenResponse)
  | failure (detail : String)
deriving DecidableEq

/-- The message of the error thrown to the caller of `getAccessToken` on
any failure.  It is a fixed literal: it names the environment variables to
check but interpolates no value, so it can never contain the client id,
client secret or refresh token. -/
def tokenRefreshErrMsg : String :=
  "Could not obtain Zoho access token. Check ZOHO_CLIENT_ID, ZOHO_CLIENT_SECRET, and ZOHO_REFRESH_TOKEN in Netlify environment variables."

/-- The guard of the cache fast path in `getAccessToken`:
`_cachedToken && _tokenExpiry && now < _tokenExpiry - 60_000`. -/
def cacheFresh (now : Int) (cache : TokenCache) : Bool :=
  truthyStr cache.cachedToken && truthyInt cache.tokenExpiry &&
    decide (now < cache.tokenExpiry.getD 0 - 60000)

/-- `getAccessToken()` from `auth.js`.  The credential environment
variables are parameters (they shape only the outgoing request, which the
embedding represents by the `resp` outcome); the clock, the module cache
and the exchange outcome are explicit.  Returns the result (token or
thrown error message) together with the cache after the call.  A response
whose `access_token` is absent or empty throws inside the `try`, is
caught, and surfaces as the same fixed error as a rejected exchange. -/
def getAccessToken (clientId clientSecret refreshToken : String)
    (now : Int) (cache : TokenCache) (resp : ExchangeOutcome) :
    Except String String × TokenCache :=
  if cacheFresh now cache then
    (.ok (cache.cachedToken.getD ""), cache)
  else
    match resp with
    | .failure _ => (.error tokenRefreshErrMsg, cache)
    | .success data =>
      if truthyStr data.access_token then
        let tok := data.access_token.getD ""
        let expiresIn : Int := if truthyInt data.expires_in then data.expires_in.getD 0 else 3600
        (.ok tok, ⟨some tok, some (now + expiresIn * 1000)⟩)
      else
        (.error tokenRefreshErrMsg, cache)

/-- `expires_in` defaulting as the specification words it, amended for JS
falsiness: 3600 seconds when the field is absent or zero. -/
def specDefaultExpiresIn : Option Int → Int
  | none => 3600
  | some v => if v = 0 then 3600 else v

/-- The cache fast-path condition as the specification words it: a cached
token exists and the current time is more than 60 seconds before its
recorded expiry. -/
def specCacheHit (now : Int) (cache : TokenCache) : Prop :=
  ∃ tk ex, cache.cachedToken = some tk ∧ cache.tokenExpiry = some ex ∧ 60000 < ex - now

/-- Cache states reachable by `getAccessToken` itself: a cached token is
never the empty string (an empty `access_token` is rejected before
caching) and a recorded expiry is never the JS-falsy time `0` (it equals
`now + expiresIn * 1000` for a positive `expiresIn` and a non-negative
clock). -/
def CacheWf (cache : TokenCache) : Prop :=
  (∀ s, cache.cachedToken = some s → s ≠ "") ∧
  (∀ x, cache.tokenExpiry = some x → x ≠ 0)

/-- A token exchange outcome that does not yield a usable token: the
request rejected, or the body has no (or an empty) `access_token`. -/
def failingResp : ExchangeOutcome → Prop
  | .failure _ => True
  | .success data => truthyStr data.access_token = false

-- ── Mail sender (mailer.js) ──────────────────────────────────────

/-- Resolved response body of the send call: `data?.data?.messageId`
flattened (`none` = missing at any level). -/
structure ZohoSendData where
  dataMessageId : Option String
deriving DecidableEq

/-- Structured error body of a rejected send call:
`zohoError?.data?.errorCode` and `zohoError?.status?.code`. -/
structure ZohoErrorBody where
  dataErrorCode : Option String
  statusCodeField : Option String
deriving DecidableEq

/-- Outcome of the `axios.post` to the send endpoint: resolved (2xx) with
a status and body, or rejected with an optional structured response body
(`err.response?.data`) and the error message. -/
inductive SendOutcome
  | resolve (status : Nat) (data : ZohoSendData)
  | reject (responseData : Option ZohoErrorBody) (errMsg : String)
deriving DecidableEq

/-- The distinct failures `send` can throw, one constructor per throw site
of `mailer.js`, carrying the data the thrown message interpolates.
`tokenError` propagates `getAccessToken` failures; `configMissingAccount`
is the `ZOHO_ACCOUNT_ID is not set` error; the three named provider codes
map to their dedicated errors; `providerError` is the generic
`Zoho Mail API error` carrying the raw body; `unexpectedResponse` is the
`Unexpected Zoho response` error for a resolved but malformed reply;
`transport` is the original error rethrown as-is when no structured
provider response exists. -/
inductive MailError
  | tokenError (msg : String)
  | configMissingAccount
  | authInvalidToken
  | configInvalidAccount
  | quotaExceeded
  | providerError (raw : ZohoErrorBody)
  | unexpectedResponse (raw : ZohoSendData)
  | transport (errMsg : String)
deriving DecidableEq

/-- JS `a || b` on two optional strings, as in
`zohoError?.data?.errorCode || zohoError?.status?.code`. -/
def firstTruthy (a b : Option String) : Option String :=
  if truthyStr a then a else b

/-- `send(opts)` from `mailer.js`: the awaited token result, the
`ZOHO_ACCOUNT_ID` environment value and the HTTP outcome are explicit.
Returns the `messageId` on success. -/
def send (tokenResult : Except String String) (accountId : Option String)
    (outcome : SendOutcome) : Except MailError String :=
  match tokenResult with
  | .error m => .error (.tokenError m)
  | .ok _ =>
    if !(truthyStr accountId) then .error .configMissingAccount
    else
      match outcome with
      | .resolve status data =>
        if status == 200 && truthyStr data.dataMessageId then
          .ok (data.dataMessageId.getD "")
        else
          .error (.unexpectedResponse data)
      | .reject respData errMsg =>
        match respData with
        | some body =>
          let code := firstTruthy body.dataErrorCode body.statusCodeField
          if code == some "INVALID_OAUTHTOKEN" then .error .authInvalidToken
          else if code == some "INVALID_ACCOUNT" then .error .configInvalidAccount
          else if code == some "QUOTA_EXCEEDED" then .error .quotaExceeded
          else .error (.providerError body)
        | none => .error (.transport errMsg)

-- ── Request handler (contact.js) ─────────────────────────────────

/-- The fields destructured from the parsed JSON body, each defaulted to
the empty string when absent. -/
structure SubmissionPayload where
  firstName : List Char
  lastName : List Char
  email : List Char
  phone : List Char
  interest : List Char
  message : List Char
deriving DecidableEq

/-- Outcome of `JSON.parse(event.body || "\x7b\x7d")`, which is external
library code: either it threw, or it produced an object whose relevant
fields are the destructured payload. -/
inductive BodyJson
  | malformed (raw : String)
  | parsed (p : SubmissionPayload)
deriving DecidableEq

/-- The incoming platform event: HTTP method, the
`x-forwarded-for` header when present, and the body. -/
structure HttpEvent where
  httpMethod : String
  xForwardedFor : Option (List Char)
  body : BodyJson
deriving DecidableEq

/-- The JSON bodies the handler can respond with, one constructor per
`respond`/return site, carrying the interpolated data. -/
inductive RespBody
  | methodNotAllowed
  | emptyBody
  | rateLimitedMsg
  | invalidJson
  | validationErrors (errs : List String)
  | successMsg (trimmedFirstName : List Char)
  | sendFailureMsg
deriving DecidableEq

/-- An HTTP response: status code, headers, body. -/
structure HttpResponse where
  statusCode : Nat
  headers : List (String × String)
  body : RespBody
deriving DecidableEq

/-- `corsHeaders(origin)` from `contact.js`. -/
def corsHeaders (origin : String) : List (String × String) :=
  [("Access-Control-Allow-Origin", origin),
   ("Access-Control-Allow-Methods", "POST, OPTIONS"),
   ("Access-Control-Allow-Headers", "Content-Type")]

/-- `respond(statusCode, body, origin)` from `contact.js`. -/
def respond (statusCode : Nat) (body : RespBody) (origin : String) : HttpResponse :=
  ⟨statusCode, corsHeaders origin ++ [("Content-Type", "application/json")], body⟩

/-- The literal fallback rate-limit key. -/
def unknownKey : List Char := "unknown".toList

/-- `event.headers["x-forwarded-for"]?.split(",")[0]?.trim() || "unknown"`:
first comma-separated entry of the header, trimmed; the literal
`"unknown"` when the header is absent or that entry is empty. -/
def clientIp : Option (List Char) → List Char
  | none => unknownKey
  | some s =>
    let f := trimList (s.takeWhile (fun c => !(c == ',')))
    if f = [] then unknownKey else f

/-- Which of the two `mailer.send` calls the handler reached, in order. -/
inductive SendTag
  | notification
  | autoReply
deriving DecidableEq

/-- Result of one handler invocation: the response, the `ipLog` after the
call, and the `mailer.send` calls attempted, in the order they were
awaited. -/
structure HandlerOutput where
  response : HttpResponse
  ipLog : IpLog
  sendsAttempted : List SendTag
deriving DecidableEq

/-- `exports.handler` from `contact.js`.  `allowedOrigin` is the
`ALLOWED_ORIGIN` environment value; `notifResult` and `replyResult` are
the outcomes the two `mailer.send` calls would produce if awaited.  The
embedding mirrors the source order: the `!== "POST"` check precedes the
`=== "OPTIONS"` check, so the preflight branch is kept even though it is
unreachable. -/
def handler (allowedOrigin : Option String) (now : Int) (log : IpLog)
    (notifResult replyResult : Except MailError String) (ev : HttpEvent) :
    HandlerOutput :=
  if !(ev.httpMethod == "POST") then
    ⟨respond 405 .methodNotAllowed "*", log, []⟩
  else
    let origin := if truthyStr allowedOrigin then allowedOrigin.getD "" else "*"
    if ev.httpMethod == "OPTIONS" then
      ⟨⟨204, corsHeaders origin, .emptyBody⟩, log, []⟩
    else
      let ip := clientIp ev.xForwardedFor
      let rl := isRateLimited now ip log
      if rl.1 then
        ⟨respond 429 .rateLimitedMsg origin, rl.2, []⟩
      else
        match ev.body with
        | .malformed _ => ⟨respond 400 .invalidJson origin, rl.2, []⟩
        | .parsed p =>
          let errors := validate p.firstName p.email p.message
          if 0 < errors.length then
            ⟨respond 400 (.validationErrors errors) origin, rl.2, []⟩
          else
            match notifResult with
            | .error _ => ⟨respond 500 .sendFailureMsg origin, rl.2, [.notification]⟩
            | .ok _ =>
              match replyResult with
              | .error _ =>
                ⟨respond 500 .sendFailureMsg origin, rl.2, [.notification, .autoReply]⟩
              | .ok _ =>
                ⟨respond 200 (.successMsg (trimList p.firstName)) origin, rl.2,
                  [.notification, .autoReply]⟩

/-- Run the handler once per clock value with a fixed header-less,
malformed-body POST event, threading the `ipLog`; returns the status codes
and the final map. -/
def runPosts : List Int → IpLog → List Nat × IpLog
  | [], log => ([], log)
  | t :: ts, log =>
    let out := handler none t log (.ok "x") (.ok "x") ⟨"POST", none, .malformed "x"⟩
    let rest := runPosts ts out.ipLog
    (out.response.statusCode :: rest.1, rest.2)

-- ── Helper lemmas ────────────────────────────────────────────────

lemma splitAtAmp_eq_some {s l r : List Char} (h : splitAtAmp s = some (l, r)) :
    s = l ++ '@' :: r ∧ '@' ∉ l := by
  induction s generalizing l r with
  | nil => simp [splitAtAmp] at h
  | cons c cs ih =>
    rw [splitAtAmp] at h
    split at h
    · next hc =>
      subst hc
      simp only [Option.some.injEq, Prod.mk.injEq] at h
      obtain ⟨hl, hr⟩ := h
      subst hl; subst hr
      simp
    · next hc =>
      cases hsp : splitAtAmp cs with
      | none => rw [hsp] at h; simp at h
      | some p =>
        obtain ⟨l0, r0⟩ := p
        rw [hsp] at h
        simp only [Option.some.injEq, Prod.mk.injEq] at h
        obtain ⟨hl, hr⟩ := h
        subst hr
        obtain ⟨hs, hnot⟩ := ih hsp
        subst hs
        cases hl
        constructor
        · simp
        · intro hmem
          rcases List.mem_cons.mp hmem with h1 | h1
          · exact hc h1.symm
          · exact hnot h1

lemma splitAtAmp_append {l r : List Char} (hl : '@' ∉ l) :
    splitAtAmp (l ++ '@' :: r) = some (l, r) := by
  induction l with
  | nil => simp [splitAtAmp]
  | cons c cs ih =>
    have hc : ¬ c = '@' := fun h => hl (by simp [h])
    have hcs : '@' ∉ cs := fun h => hl (List.mem_cons_of_mem _ h)
    simp [splitAtAmp, hc, ih hcs]

lemma tailHasDot_iff {cs : List Char} :
    tailHasDot cs = true ↔ ∃ d t, cs = d ++ '.' :: t ∧ 2 ≤ t.length := by
  induction cs with
  | nil =>
    constructor
    · intro h
      simp [tailHasDot] at h
    · rintro ⟨d, t, heq, -⟩
      cases d <;> simp at heq
  | cons c cs ih =>
    rw [tailHasDot]
    constructor
    · intro h
      rw [Bool.or_eq_true] at h
      rcases h with h1 | h1
      · rw [Bool.and_eq_true] at h1
        obtain ⟨hdot, hlen⟩ := h1
        exact ⟨[], cs, by simp [eq_of_beq hdot], of_decide_eq_true hlen⟩
      · obtain ⟨d, t, heq, hlen⟩ := ih.mp h1
        exact ⟨c :: d, t, by simp [heq], hlen⟩
    · rintro ⟨d, t, heq, hlen⟩
      cases d with
      | nil =>
        simp only [List.nil_append, List.cons.injEq] at heq
        obtain ⟨hc, hcs⟩ := heq
        subst hc; subst hcs
        simp [hlen]
      | cons d0 ds =>
        simp only [List.cons_append, List.cons.injEq] at heq
        obtain ⟨hc, hcs⟩ := heq
        subst hc
        have : tailHasDot cs = true := ih.mpr ⟨ds, t, hcs, hlen⟩
        simp [this]

lemma okChar_amp : okChar '@' = false := by decide

lemma okChar_dot : okChar '.' = true := by decide

/-- Matcher correctness: the executable `EMAIL_RE` accepts exactly the
strings of the declarative pattern. -/
lemma EMAIL_RE_iff_specEmailPattern (s : List Char) :
    EMAIL_RE s = true ↔ specEmailPattern s := by
  constructor
  · intro h
    rw [EMAIL_RE] at h
    cases hsp : splitAtAmp s with
    | none => rw [hsp] at h; simp at h
    | some p =>
      obtain ⟨l, r⟩ := p
      rw [hsp] at h
      simp only [Bool.and_eq_true, decide_eq_true_eq] at h
      obtain ⟨⟨⟨hl, hlok⟩, hrok⟩, hdp⟩ := h
      obtain ⟨hs, -⟩ := splitAtAmp_eq_some hsp
      cases r with
      | nil => simp [domainPart] at hdp
      | cons c cs =>
        rw [domainPart] at hdp
        obtain ⟨d, t, hcs, hlen⟩ := tailHasDot_iff.mp hdp
        refine ⟨l, c :: d, t, ?_, hl, by simp, hlen, hlok, ?_, ?_⟩
        · rw [hs, hcs]
          simp
        · subst hcs
          simp only [List.all_cons, List.all_append, Bool.and_eq_true] at hrok ⊢
          exact ⟨hrok.1, hrok.2.1⟩
        · subst hcs
          simp only [List.all_cons, List.all_append, Bool.and_eq_true] at hrok
          exact hrok.2.2.2
  · rintro ⟨l, d, t, hs, hl, hd, hlen, hlok, hdok, htok⟩
    have hlamp : '@' ∉ l := by
      intro hmem
      have := List.all_eq_true.mp hlok _ hmem
      rw [okChar_amp] at this
      exact Bool.false_ne_true this
    rw [EMAIL_RE, hs, splitAtAmp_append hlamp]
    simp only [Bool.and_eq_true, decide_eq_true_eq]
    refine ⟨⟨⟨hl, hlok⟩, ?_⟩, ?_⟩
    · simp only [List.all_append, List.all_cons, Bool.and_eq_true]
      exact ⟨hdok, okChar_dot, htok⟩
    · cases d with
      | nil => exact absurd rfl hd
      | cons d0 ds =>
        rw [List.cons_append, domainPart]
        exact tailHasDot_iff.mpr ⟨ds, t, rfl, hlen⟩

lemma dropWhile_eq_self_of {p : Char → Bool} {l : List Char}
    (h : ∀ c ∈ l, p c = false) : l.dropWhile p = l := by
  cases l with
  | nil => rfl
  | cons a tl => simp [List.dropWhile_cons, h a (by simp)]

lemma trimList_eq_self {l : List Char} (h : ∀ c ∈ l, isJsSpace c = false) :
    trimList l = l := by
  unfold trimList
  rw [dropWhile_eq_self_of h,
      dropWhile_eq_self_of (fun c hc => h c (List.mem_reverse.mp hc)),
      List.reverse_reverse]

lemma trimList_nil : trimList [] = [] := rfl

lemma trimList_replicate_a (n : Nat) :
    trimList (List.replicate n 'a') = List.replicate n 'a' := by
  refine trimList_eq_self ?_
  intro c hc
  rw [List.eq_of_mem_replicate hc]
  decide

lemma mem_ite_singleton {c : Prop} [Decidable c] {x err : String} :
    err ∈ (if c then [x] else []) ↔ err = x ∧ c := by
  split_ifs with h <;> simp [h]

lemma mem_validate_iff (f e m : List Char) (err : String) :
    err ∈ validate f e m ↔
      (err = firstNameErr ∧ (f = [] ∨ (trimList f).length < 2)) ∨
      (err = emailErr ∧ (e = [] ∨ EMAIL_RE (trimList e) = false)) ∨
      (err = msgShortErr ∧ (m = [] ∨ (trimList m).length < 10)) ∨
      (err = msgLongErr ∧ (m ≠ [] ∧ 5000 < (trimList m).length)) := by
  unfold validate
  simp only [List.mem_append, mem_ite_singleton, or_assoc]

/-- Each source condition in `validate` is equivalent to its trimmed-length
form: emptiness of a field is subsumed, since the empty string trims to
length `0` and fails `EMAIL_RE`. -/
lemma validate_eq (f e m : List Char) :
    validate f e m =
      (if (trimList f).length < 2 then [firstNameErr] else []) ++
      (if EMAIL_RE (trimList e) = false then [emailErr] else []) ++
      (if (trimList m).length < 10 then [msgShortErr] else []) ++
      (if 5000 < (trimList m).length then [msgLongErr] else []) := by
  unfold validate
  have hf : (f = [] ∨ (trimList f).length < 2) ↔ (trimList f).length < 2 := by
    constructor
    · rintro (rfl | h)
      · decide
      · exact h
    · exact Or.inr
  have he : (e = [] ∨ EMAIL_RE (trimList e) = false) ↔ EMAIL_RE (trimList e) = false := by
    constructor
    · rintro (rfl | h)
      · decide
      · exact h
    · exact Or.inr
  have hm : (m = [] ∨ (trimList m).length < 10) ↔ (trimList m).length < 10 := by
    constructor
    · rintro (rfl | h)
      · decide
      · exact h
    · exact Or.inr
  have hl : (m ≠ [] ∧ 5000 < (trimList m).length) ↔ 5000 < (trimList m).length := by
    constructor
    · exact And.right
    · intro h
      refine ⟨?_, h⟩
      rintro rfl
      revert h
      decide
  rw [if_congr hf rfl rfl, if_congr he rfl rfl, if_congr hm rfl rfl, if_congr hl rfl rfl]

-- ── C2 ───────────────────────────────────────────────────────────

/-- C2: the email check of the validator accepts exactly the strings of the
pattern `local-part@domain.tld` (no whitespace or `@` in the parts, at
least two characters after the dot); `a@b.co` passes, while `a@b`,
`a@@b.co`, `ab.co` and the empty string each fail with the error
`A valid email address is required.`. -/
theorem C2_email_check (s f m : List Char) :
    (EMAIL_RE s = true ↔ specEmailPattern s) ∧
    emailErr ∉ validate f ("a@b.co".toList) m ∧
    emailErr ∈ validate f ("a@b".toList) m ∧
    emailErr ∈ validate f ("a@@b.co".toList) m ∧
    emailErr ∈ validate f ("ab.co".toList) m ∧
    emailErr ∈ validate f [] m := by
  refine ⟨EMAIL_RE_iff_specEmailPattern s, ?_, ?_, ?_, ?_, ?_⟩
  · rw [mem_validate_iff]
    rintro (⟨h, -⟩ | ⟨-, hc⟩ | ⟨h, -⟩ | ⟨h, -⟩)
    · exact absurd h (by decide)
    · exact absurd hc (by decide)
    · exact absurd h (by decide)
    · exact absurd h (by decide)
  · exact (mem_validate_iff ..).mpr (Or.inr (Or.inl ⟨rfl, by decide⟩))
  · exact (mem_validate_iff ..).mpr (Or.inr (Or.inl ⟨rfl, by decide⟩))
  · exact (mem_validate_iff ..).mpr (Or.inr (Or.inl ⟨rfl, by decide⟩))
  · exact (mem_validate_iff ..).mpr (Or.inr (Or.inl ⟨rfl, by decide⟩))

-- ── C5 ───────────────────────────────────────────────────────────

/-- C5: `validate` evaluates its four rules independently and returns
exactly the applicable error strings in the fixed order first name, email,
message too short, message too long (empty exactly when all pass), with
the message boundaries at trimmed lengths 10 and 5000 inclusive, and the
first-name error exactly when the first name trims to fewer than 2
characters. -/
theorem C5_validator_rules (f e m : List Char) :
    (validate f e m =
      (if (trimList f).length < 2 then [firstNameErr] else []) ++
      (if EMAIL_RE (trimList e) = false then [emailErr] else []) ++
      (if (trimList m).length < 10 then [msgShortErr] else []) ++
      (if 5000 < (trimList m).length then [msgLongErr] else [])) ∧
    (validate f e m = [] ↔
      2 ≤ (trimList f).length ∧ EMAIL_RE (trimList e) = true ∧
      10 ≤ (trimList m).length ∧ (trimList m).length ≤ 5000) ∧
    ((trimList m).length = 10 → msgShortErr ∉ validate f e m) ∧
    ((trimList m).length = 9 → msgShortErr ∈ validate f e m) ∧
    ((trimList m).length = 5000 → msgLongErr ∉ validate f e m) ∧
    ((trimList m).length = 5001 → msgLongErr ∈ validate f e m) ∧
    ((trimList f).length < 2 → firstNameErr ∈ validate f e m) := by
  refine ⟨validate_eq f e m, ?_, ?_, ?_, ?_, ?_, ?_⟩
  · rw [validate_eq]
    split_ifs with h1 h2 h3 h4 <;>
      simp_all [firstNameErr, emailErr, msgShortErr, msgLongErr] <;>
      constructor <;> omega
  · intro h
    rw [mem_validate_iff]
    rintro (⟨hh, -⟩ | ⟨hh, -⟩ | ⟨-, (rfl | hh)⟩ | ⟨hh, -⟩)
    · exact absurd hh (by decide)
    · exact absurd hh (by decide)
    · exact absurd h (by decide)
    · omega
    · exact absurd hh (by decide)
  · intro h
    exact (mem_validate_iff ..).mpr (Or.inr (Or.inr (Or.inl ⟨rfl, Or.inr (by omega)⟩)))
  · intro h
    rw [mem_validate_iff]
    rintro (⟨hh, -⟩ | ⟨hh, -⟩ | ⟨hh, -⟩ | ⟨-, -, hh⟩)
    · exact absurd hh (by decide)
    · exact absurd hh (by decide)
    · exact absurd hh (by decide)
    · omega
  · intro h
    refine (mem_validate_iff ..).mpr (Or.inr (Or.inr (Or.inr ⟨rfl, ?_, by omega⟩)))
    rintro rfl
    rw [trimList_nil] at h
    simp at h
  · intro h
    exact (mem_validate_iff ..).mpr (Or.inl ⟨rfl, Or.inr h⟩)

/-- C5 witness: concrete instances of the message-length boundaries and the
first-name rule. -/
theorem C5_validator_rules_witness :
    msgShortErr ∉ validate ['J', 'o'] [] (List.replicate 10 'a') ∧
    msgShortErr ∈ validate ['J', 'o'] [] (List.replicate 9 'a') ∧
    msgLongErr ∉ validate ['J', 'o'] [] (List.replicate 5000 'a') ∧
    msgLongErr ∈ validate ['J', 'o'] [] (List.replicate 5001 'a') ∧
    firstNameErr ∈ validate ['J'] [] [] := by
  refine ⟨(C5_validator_rules ..).2.2.1 ?_, (C5_validator_rules ..).2.2.2.1 ?_,
          (C5_validator_rules ..).2.2.2.2.1 ?_, (C5_validator_rules ..).2.2.2.2.2.1 ?_,
          (C5_validator_rules ..).2.2.2.2.2.2 (by decide)⟩ <;>
    rw [trimList_replicate_a, List.length_replicate]

-- ── C3 ───────────────────────────────────────────────────────────

/-- C3: `isRateLimited` is a fixed window resetting on first use after
expiry: a missing entry, or one whose window started more than 15 minutes
ago, becomes `(count 1, windowStart now)` with a not-limited result; a
live entry at `count ≥ 10` yields limited without incrementing; otherwise
the count increments and the result is not-limited.  Consequently, from an
empty map, 10 calls in the window are not-limited, the 11th is limited,
and a call after expiry is not-limited with the counter reset to 1. -/
theorem C3_rate_limiter (now : Int) (ip : List Char) (log : IpLog) (e : RLEntry) :
    (logGet log ip = none → isRateLimited now ip log = (false, logSet log ip ⟨1, now⟩)) ∧
    (logGet log ip = some e → RATE_WINDOW_MS < now - e.windowStart →
      isRateLimited now ip log = (false, logSet log ip ⟨1, now⟩)) ∧
    (logGet log ip = some e → now - e.windowStart ≤ RATE_WINDOW_MS → RATE_MAX ≤ e.count →
      isRateLimited now ip log = (true, log)) ∧
    (logGet log ip = some e → now - e.windowStart ≤ RATE_WINDOW_MS → e.count < RATE_MAX →
      isRateLimited now ip log = (false, logSet log ip ⟨e.count + 1, e.windowStart⟩)) ∧
    runCalls ip (List.replicate 11 now ++ [now + RATE_WINDOW_MS + 1]) [] =
      (List.replicate 10 false ++ [true, false], [(ip, ⟨1, now + RATE_WINDOW_MS + 1⟩)]) := by
  have harith : now + 900000 + 1 - now = 900001 := by omega
  refine ⟨?_, ?_, ?_, ?_, ?_⟩
  · intro h
    norm_num [isRateLimited, h, RATE_WINDOW_MS, RATE_MAX]
  · intro h hw
    simp [isRateLimited, h, hw]
  · intro h hw hc
    have h1 : ¬ (RATE_WINDOW_MS < now - e.windowStart) := not_lt.mpr hw
    simp [isRateLimited, h, h1, hc]
  · intro h hw hc
    have h1 : ¬ (RATE_WINDOW_MS < now - e.windowStart) := not_lt.mpr hw
    have h2 : ¬ (RATE_MAX ≤ e.count) := not_le.mpr hc
    simp [isRateLimited, h, h1, h2]
  · norm_num [runCalls, isRateLimited, logGet, logSet, List.replicate,
      RATE_WINDOW_MS, RATE_MAX, harith]

/-- C3 witness: a live entry at the cap is limited and unchanged. -/
theorem C3_rate_limiter_witness :
    isRateLimited 5 ['k'] [(['k'], ⟨10, 0⟩)] = (true, [(['k'], ⟨10, 0⟩)]) :=
  (C3_rate_limiter 5 ['k'] [(['k'], ⟨10, 0⟩)] ⟨10, 0⟩).2.2.1 (by decide) (by decide) (by decide)

-- ── C4 / C8: token provider ──────────────────────────────────────

lemma cacheFresh_iff {now : Int} {cache : TokenCache} (hwf : CacheWf cache) :
    cacheFresh now cache = true ↔ specCacheHit now cache := by
  constructor
  · intro h
    rw [cacheFresh, Bool.and_eq_true, Bool.and_eq_true] at h
    obtain ⟨⟨hts, hti⟩, hde⟩ := h
    cases htk : cache.cachedToken with
    | none => rw [htk] at hts; simp [truthyStr] at hts
    | some tk =>
      cases hex : cache.tokenExpiry with
      | none => rw [hex] at hti; simp [truthyInt] at hti
      | some ex =>
        refine ⟨tk, ex, htk, hex, ?_⟩
        rw [hex] at hde
        have := of_decide_eq_true hde
        simp only [Option.getD_some] at this
        omega
  · rintro ⟨tk, ex, htk, hex, hlt⟩
    rw [cacheFresh, htk, hex]
    have h1 : truthyStr (some tk) = true := by
      have := hwf.1 tk htk
      simp [truthyStr, this]
    have h2 : truthyInt (some ex) = true := by
      have := hwf.2 ex hex
      simp [truthyInt, this]
    rw [h1, h2]
    simp only [Bool.true_and, Option.getD_some, decide_eq_true_eq]
    omega

lemma expiresIn_eq (ein : Option Int) :
    (if truthyInt ein then ein.getD 0 else 3600) = specDefaultExpiresIn ein := by
  cases ein with
  | none => rfl
  | some v =>
    by_cases hv : v = 0 <;> simp [truthyInt, specDefaultExpiresIn, hv]

lemma getAccessToken_success_of_miss (cid cs rt : String) (now : Int)
    (cache : TokenCache) (hcf : cacheFresh now cache = false)
    (tok : String) (htok : tok ≠ "") (ein : Option Int) :
    getAccessToken cid cs rt now cache (.success ⟨some tok, ein⟩)
      = (.ok tok, ⟨some tok, some (now + specDefaultExpiresIn ein * 1000)⟩) := by
  have ht : truthyStr (some tok) = true := by simp [truthyStr, htok]
  rw [getAccessToken, if_neg (by simp [hcf])]
  simp only [ht, if_pos, Option.getD_some, expiresIn_eq]

/-- C4 (amended): `getAccessToken` returns the cached token without a
network call exactly when a cached token exists and the clock is more than
60 seconds before its recorded expiry (a token expiring 61 seconds out is
reused independently of the exchange outcome; one expiring 59 seconds out
triggers the exchange); on a successful exchange it caches the new token
with expiry `now + expires_in * 1000`, defaulting `expires_in` to 3600
seconds when it is absent or zero, and returns it. -/
theorem C4_token_caching (cid cs rt : String) (now : Int) (cache : TokenCache)
    (hwf : CacheWf cache) :
    ((∀ resp, getAccessToken cid cs rt now cache resp
        = (.ok (cache.cachedToken.getD ""), cache)) ↔ specCacheHit now cache) ∧
    (cacheFresh now cache = false → ∀ tok ein, tok ≠ "" →
      getAccessToken cid cs rt now cache (.success ⟨some tok, ein⟩)
        = (.ok tok, ⟨some tok, some (now + specDefaultExpiresIn ein * 1000)⟩)) ∧
    (∀ t, t ≠ "" → 0 ≤ now → ∀ resp,
      getAccessToken cid cs rt now ⟨some t, some (now + 61000)⟩ resp
        = (.ok t, ⟨some t, some (now + 61000)⟩)) ∧
    (∀ t tok ein, tok ≠ "" →
      getAccessToken cid cs rt now ⟨some t, some (now + 59000)⟩ (.success ⟨some tok, ein⟩)
        = (.ok tok, ⟨some tok, some (now + specDefaultExpiresIn ein * 1000)⟩)) := by
  refine ⟨?_, ?_, ?_, ?_⟩
  · constructor
    · intro hall
      by_contra hnot
      have hcf : cacheFresh now cache = false := by
        cases hc : cacheFresh now cache with
        | true => exact absurd ((cacheFresh_iff hwf).mp hc) hnot
        | false => rfl
      have := hall (.failure "x")
      rw [getAccessToken, if_neg (by simp [hcf])] at this
      simp at this
    · intro hspec resp
      have hcf : cacheFresh now cache = true := (cacheFresh_iff hwf).mpr hspec
      rw [getAccessToken.eq_def, if_pos (by simp [hcf])]
  · intro hcf tok ein htok
    exact getAccessToken_success_of_miss cid cs rt now cache hcf tok htok ein
  · intro t ht hnow resp
    have hcf : cacheFresh now ⟨some t, some (now + 61000)⟩ = true := by
      refine (cacheFresh_iff ?_).mpr ⟨t, now + 61000, rfl, rfl, by omega⟩
      exact ⟨fun s hs => by cases hs; exact ht, fun x hx => by cases hx; omega⟩
    rw [getAccessToken.eq_def, if_pos (by simp [hcf])]
    simp
  · intro t tok ein htok
    have hcf : cacheFresh now ⟨some t, some (now + 59000)⟩ = false := by
      have : ¬ now < now + 59000 - 60000 := by omega
      simp [cacheFresh, this]
    exact getAccessToken_success_of_miss cid cs rt now _ hcf tok htok ein

/-- C4 witness: at clock 0, a cached token with expiry 61000 ms is reused
even when the exchange would fail, and one with expiry 59000 ms triggers
the exchange and caches the fresh token with the 3600 s default expiry. -/
theorem C4_token_caching_witness :
    getAccessToken "i" "s" "r" 0 ⟨some "tok", some 61000⟩ (.failure "x")
      = (.ok "tok", ⟨some "tok", some 61000⟩) ∧
    getAccessToken "i" "s" "r" 0 ⟨some "tok", some 59000⟩ (.success ⟨some "fresh", none⟩)
      = (.ok "fresh", ⟨some "fresh", some 3600000⟩) := by
  have wfnil : CacheWf ⟨none, none⟩ :=
    ⟨fun _ h => Option.noConfusion h, fun _ h => Option.noConfusion h⟩
  exact ⟨(C4_token_caching "i" "s" "r" 0 ⟨none, none⟩ wfnil).2.2.1 "tok" (by decide)
           (by decide) (.failure "x"),
         (C4_token_caching "i" "s" "r" 0 ⟨none, none⟩ wfnil).2.2.2 "tok" "fresh" none
           (by decide)⟩

/-- C4 counterexample: the claim as stated defaults `expires_in` only when
absent; but for the present value `0` (JS falsy) the code also defaults,
caching expiry `now + 3600000` instead of the claimed `now + 0 * 1000`. -/
theorem C4_token_caching_counterexample :
    getAccessToken "i" "s" "r" 0 ⟨none, none⟩ (.success ⟨some "tok", some 0⟩)
      = (.ok "tok", ⟨some "tok", some 3600000⟩) ∧ (3600000 : Int) ≠ 0 + 0 * 1000 := by
  constructor
  · rfl
  · decide

/-- C8: on any failing exchange (rejected request, or response missing the
`access_token` field) past a stale cache, `getAccessToken` fails with the
fixed redacted error message — a literal that interpolates no value, so
the result is the same for every client id, client secret and refresh
token — and leaves the previously cached token and expiry unchanged. -/
theorem C8_auth_failure (cid cs rt cid2 cs2 rt2 : String) (now : Int)
    (cache : TokenCache) (resp : ExchangeOutcome) (hfail : failingResp resp) :
    (getAccessToken cid cs rt now cache resp).2 = cache ∧
    (cacheFresh now cache = false →
      (getAccessToken cid cs rt now cache resp).1 = .error tokenRefreshErrMsg) ∧
    getAccessToken cid cs rt now cache resp = getAccessToken cid2 cs2 rt2 now cache resp := by
  refine ⟨?_, ?_, rfl⟩
  · cases resp with
    | failure d =>
      rw [getAccessToken]
      split_ifs <;> rfl
    | success data =>
      have hfa : truthyStr data.access_token = false := hfail
      rw [getAccessToken]
      split_ifs with h1 h2 h3
      · rfl
      · simp [hfa] at h2
      · simp [hfa] at h2
      · rfl
  · intro hcf
    cases resp with
    | failure d =>
      rw [getAccessToken, if_neg (by simp [hcf])]
    | success data =>
      have hfa : truthyStr data.access_token = false := hfail
      rw [getAccessToken, if_neg (by simp [hcf])]
      simp [hfa]

/-- C8 witness: a stale cache and a rejected exchange yield the fixed error
and an unchanged cache. -/
theorem C8_auth_failure_witness :
    (getAccessToken "a" "b" "c" 999999999 ⟨some "old", some 100⟩ (.failure "no")).1
        = .error tokenRefreshErrMsg ∧
    (getAccessToken "a" "b" "c" 999999999 ⟨some "old", some 100⟩ (.failure "no")).2
        = ⟨some "old", some 100⟩ :=
  ⟨(C8_auth_failure "a" "b" "c" "x" "y" "z" 999999999 ⟨some "old", some 100⟩
      (.failure "no") True.intro).2.1 (by decide),
   (C8_auth_failure "a" "b" "c" "x" "y" "z" 999999999 ⟨some "old", some 100⟩
      (.failure "no") True.intro).1⟩

-- ── C6 / C7: mail sender ─────────────────────────────────────────

/-- C6: with a token and a configured account, `send` succeeds — returning
the message identifier — exactly when the provider resolved with HTTP 200
and a non-empty `messageId`; any other resolved shape, even with another
success-looking 2xx status, is the unexpected-response failure. -/
theorem C6_send_success (tok aid : String) (haid : aid ≠ "") (status : Nat)
    (data : ZohoSendData) (mid : String) :
    (send (.ok tok) (some aid) (.resolve status data) = .ok mid ↔
      status = 200 ∧ data.dataMessageId = some mid ∧ mid ≠ "") ∧
    (¬ (status = 200 ∧ truthyStr data.dataMessageId = true) →
      send (.ok tok) (some aid) (.resolve status data) = .error (.unexpectedResponse data)) := by
  have htr : truthyStr (some aid) = true := by simp [truthyStr, haid]
  constructor
  · rw [send]
    simp only [htr, Bool.not_true, Bool.false_eq_true, if_false]
    cases hmid : data.dataMessageId with
    | none =>
      simp [truthyStr]
    | some m =>
      by_cases hm : m = ""
      · subst hm
        simp only [truthyStr]
        simp
        intro _ h
        exact h.symm
      · by_cases h200 : status = 200
        · subst h200
          simp only [truthyStr, beq_self_eq_true, Bool.true_and]
          simp [hm]
          intro h
          exact h ▸ hm
        · have : (status == 200) = false := by simpa using h200
          simp [this, h200]
  · intro h
    rw [send]
    simp only [htr, Bool.not_true, Bool.false_eq_true, if_false]
    have : (status == 200 && truthyStr data.dataMessageId) = false := by
      rcases Decidable.em (status = 200) with h200 | h200
      · rcases Decidable.em (truthyStr data.dataMessageId = true) with hmid | hmid
        · exact absurd ⟨h200, hmid⟩ h
        · simp [Bool.eq_false_iff.mpr hmid]
      · have : (status == 200) = false := by simpa using h200
        simp [this]
    simp [this]

/-- C6 witness: a resolved 202 response carrying a message identifier is
still an unexpected-response failure. -/
theorem C6_send_success_witness :
    send (.ok "t") (some "acc") (.resolve 202 ⟨some "id1"⟩)
      = .error (.unexpectedResponse ⟨some "id1"⟩) :=
  (C6_send_success "t" "acc" (by decide) 202 ⟨some "id1"⟩ "id1").2 (by decide)

/-- C7: `send` fails fast with the missing-account configuration error when
`ZOHO_ACCOUNT_ID` is unset or empty, whatever the provider would have
answered; a structured provider error maps by code — `INVALID_OAUTHTOKEN`
to the auth error, `INVALID_ACCOUNT` to the account configuration error,
`QUOTA_EXCEEDED` to the quota error, anything else to the generic provider
error carrying the raw body — and a rejection without a structured
response body is rethrown as-is as the transport failure. -/
theorem C7_send_error_mapping (tok m aid : String) (haid : aid ≠ "")
    (body : ZohoErrorBody) :
    (∀ outcome, send (.ok tok) none outcome = .error .configMissingAccount) ∧
    (∀ outcome, send (.ok tok) (some "") outcome = .error .configMissingAccount) ∧
    (firstTruthy body.dataErrorCode body.statusCodeField = some "INVALID_OAUTHTOKEN" →
      send (.ok tok) (some aid) (.reject (some body) m) = .error .authInvalidToken) ∧
    (firstTruthy body.dataErrorCode body.statusCodeField = some "INVALID_ACCOUNT" →
      send (.ok tok) (some aid) (.reject (some body) m) = .error .configInvalidAccount) ∧
    (firstTruthy body.dataErrorCode body.statusCodeField = some "QUOTA_EXCEEDED" →
      send (.ok tok) (some aid) (.reject (some body) m) = .error .quotaExceeded) ∧
    (firstTruthy body.dataErrorCode body.statusCodeField ≠ some "INVALID_OAUTHTOKEN" →
     firstTruthy body.dataErrorCode body.statusCodeField ≠ some "INVALID_ACCOUNT" →
     firstTruthy body.dataErrorCode body.statusCodeField ≠ some "QUOTA_EXCEEDED" →
      send (.ok tok) (some aid) (.reject (some body) m) = .error (.providerError body)) ∧
    (send (.ok tok) (some aid) (.reject none m) = .error (.transport m)) := by
  have htr : truthyStr (some aid) = true := by simp [truthyStr, haid]
  refine ⟨fun o => by rw [send.eq_def]; simp [truthyStr],
          fun o => by rw [send.eq_def]; simp [truthyStr],
          ?_, ?_, ?_, ?_, by rw [send]; simp [htr]⟩
  · intro h
    rw [send]
    simp [htr, h]
  · intro h
    rw [send]
    simp [htr, h]
  · intro h
    rw [send]
    simp [htr, h]
  · intro h1 h2 h3
    rw [send]
    simp [htr, beq_eq_false_iff_ne.mpr h1, beq_eq_false_iff_ne.mpr h2,
          beq_eq_false_iff_ne.mpr h3]

/-- C7 witness: the three named provider codes and the transport rethrow at
concrete inputs. -/
theorem C7_send_error_mapping_witness :
    send (.ok "t") (some "acc") (.reject (some ⟨some "INVALID_OAUTHTOKEN", none⟩) "e1")
      = .error .authInvalidToken ∧
    send (.ok "t") (some "acc") (.reject (some ⟨none, some "QUOTA_EXCEEDED"⟩) "e2")
      = .error .quotaExceeded ∧
    send (.ok "t") (some "acc") (.reject (some ⟨some "", some "SOMETHING_ELSE"⟩) "e3")
      = .error (.providerError ⟨some "", some "SOMETHING_ELSE"⟩) :=
  ⟨(C7_send_error_mapping "t" "e1" "acc" (by decide) ⟨some "INVALID_OAUTHTOKEN", none⟩).2.2.1
      (by decide),
   (C7_send_error_mapping "t" "e2" "acc" (by decide) ⟨none, some "QUOTA_EXCEEDED"⟩).2.2.2.2.1
      (by decide),
   (C7_send_error_mapping "t" "e3" "acc" (by decide) ⟨some "", some "SOMETHING_ELSE"⟩).2.2.2.2.2.1
      (by decide) (by decide) (by decide)⟩

-- ── C1: method handling ──────────────────────────────────────────

/-- C1 divergence: in `contact.js` the `!== "POST"` early return precedes
the `=== "OPTIONS"` preflight branch, so the preflight branch is dead code
and an `OPTIONS` request receives the 405 Method Not Allowed response, not
the 204 preflight response; other non-POST methods also receive 405. -/
theorem C1_options_request_gets_405 :
    (handler none 0 [] (.ok "x") (.ok "x") ⟨"OPTIONS", none, .malformed ""⟩).response
      = respond 405 .methodNotAllowed "*" ∧
    (handler none 0 [] (.ok "x") (.ok "x")
      ⟨"OPTIONS", none, .malformed ""⟩).response.statusCode ≠ 204 ∧
    (handler none 0 [] (.ok "x") (.ok "x")
      ⟨"GET", none, .malformed ""⟩).response.statusCode = 405 := by
  refine ⟨rfl, ?_, rfl⟩
  decide

-- ── C9: sequential sends ─────────────────────────────────────────

/-- C9: for a POST that passes the rate limit, parses and validates, the
handler awaits the notification send and then the auto-reply strictly in
that order (the attempt list is ordered); when the notification send fails
— e.g. with the invalid-token provider error — the response is 500 with
the generic fallback body and the auto-reply is never attempted. -/
theorem C9_sequential_sends (ao : Option String) (now : Int) (log : IpLog)
    (nr rr : Except MailError String) (ev : HttpEvent) (p : SubmissionPayload)
    (hm : ev.httpMethod = "POST")
    (hrl : (isRateLimited now (clientIp ev.xForwardedFor) log).1 = false)
    (hb : ev.body = .parsed p)
    (hv : validate p.firstName p.email p.message = []) :
    ((∃ e, nr = .error e) →
      (handler ao now log nr rr ev).sendsAttempted = [SendTag.notification] ∧
      (handler ao now log nr rr ev).response.statusCode = 500 ∧
      (handler ao now log nr rr ev).response.body = .sendFailureMsg ∧
      SendTag.autoReply ∉ (handler ao now log nr rr ev).sendsAttempted) ∧
    ((∃ t, nr = .ok t) →
      (handler ao now log nr rr ev).sendsAttempted
        = [SendTag.notification, SendTag.autoReply]) := by
  obtain ⟨method, xff, bd⟩ := ev
  simp only at hm hb hrl
  subst hm
  subst hb
  constructor
  · rintro ⟨e, rfl⟩
    unfold handler
    simp [hrl, hv, respond]
  · rintro ⟨t, rfl⟩
    unfold handler
    cases rr <;> simp [hrl, hv]

/-- C9 witness: a valid submission whose notification send fails with the
invalid-token error yields 500, the generic fallback body, and no
auto-reply attempt. -/
theorem C9_sequential_sends_witness :
    (handler none 0 [] (.error .authInvalidToken) (.ok "x")
      ⟨"POST", none, .parsed ⟨"Jane".toList, [], "jane@example.com".toList, [], [],
        "Hello, I am interested.".toList⟩⟩).sendsAttempted = [SendTag.notification] ∧
    (handler none 0 [] (.error .authInvalidToken) (.ok "x")
      ⟨"POST", none, .parsed ⟨"Jane".toList, [], "jane@example.com".toList, [], [],
        "Hello, I am interested.".toList⟩⟩).response.statusCode = 500 ∧
    (handler none 0 [] (.error .authInvalidToken) (.ok "x")
      ⟨"POST", none, .parsed ⟨"Jane".toList, [], "jane@example.com".toList, [], [],
        "Hello, I am interested.".toList⟩⟩).response.body = .sendFailureMsg ∧
    SendTag.autoReply ∉ (handler none 0 [] (.error .authInvalidToken) (.ok "x")
      ⟨"POST", none, .parsed ⟨"Jane".toList, [], "jane@example.com".toList, [], [],
        "Hello, I am interested.".toList⟩⟩).sendsAttempted :=
  (C9_sequential_sends none 0 [] (.error .authInvalidToken) (.ok "x")
    ⟨"POST", none, .parsed ⟨"Jane".toList, [], "jane@example.com".toList, [], [],
      "Hello, I am interested.".toList⟩⟩
    ⟨"Jane".toList, [], "jane@example.com".toList, [], [], "Hello, I am interested.".toList⟩
    rfl (by decide) rfl (by decide)).1 ⟨.authInvalidToken, rfl⟩

-- ── C10: header-less requests share the "unknown" key ────────────

lemma logGet_logSet_ne {log : IpLog} {ip k : List Char} {v : RLEntry} (hk : k ≠ ip) :
    logGet (logSet log ip v) k = logGet log k := by
  have hik : ¬ ip = k := fun h => hk h.symm
  induction log with
  | nil =>
    simp [logSet, logGet, hik]
  | cons hd rest ih =>
    obtain ⟨k0, w⟩ := hd
    by_cases h0 : k0 = ip
    · subst h0
      simp [logSet, logGet, hik]
    · by_cases h1 : k0 = k <;> simp [logSet, logGet, h0, h1, ih, hk]

lemma isRateLimited_preserves {now : Int} {ip k : List Char} {log : IpLog}
    (hk : k ≠ ip) :
    logGet ((isRateLimited now ip log).2) k = logGet log k := by
  unfold isRateLimited
  by_cases h1 : RATE_WINDOW_MS < now - ((logGet log ip).getD ⟨0, now⟩).windowStart
  · simp [h1, logGet_logSet_ne hk]
  · by_cases h2 : RATE_MAX ≤ ((logGet log ip).getD ⟨0, now⟩).count
    · simp [h1, h2]
    · simp [h1, h2, logGet_logSet_ne hk]

/-- C10: a POST whose `X-Forwarded-For` header is absent (or whose first
entry is empty) is rate-limited under the literal key `unknown`: the
handler answers 429 exactly when that shared entry is limited, touches no
other key, and — from an empty map — ten header-less POSTs in one window
are served, the eleventh gets 429, and one after window expiry is served
again with the shared counter reset to 1. -/
theorem C10_unknown_key (ao : Option String) (now : Int) (log : IpLog)
    (nr rr : Except MailError String) (ev : HttpEvent)
    (hm : ev.httpMethod = "POST")
    (hx : ev.xForwardedFor = none ∨ ev.xForwardedFor = some []) :
    clientIp ev.xForwardedFor = unknownKey ∧
    ((handler ao now log nr rr ev).response.statusCode = 429 ↔
      (isRateLimited now unknownKey log).1 = true) ∧
    (∀ k, k ≠ unknownKey → logGet (handler ao now log nr rr ev).ipLog k = logGet log k) ∧
    runPosts (List.replicate 11 0 ++ [900001]) []
      = (List.replicate 10 400 ++ [429, 400], [(unknownKey, ⟨1, 900001⟩)]) := by
  obtain ⟨method, xff, bd⟩ := ev
  simp only at hm hx
  subst hm
  have hip : clientIp xff = unknownKey := by
    rcases hx with rfl | rfl
    · rfl
    · rfl
  refine ⟨hip, ?_, ?_, by decide⟩
  · unfold handler
    simp only [hip]
    cases hlim : (isRateLimited now unknownKey log).1 with
    | true => simp [respond]
    | false =>
      cases bd with
      | malformed raw => simp [respond]
      | parsed p =>
        by_cases he : 0 < (validate p.firstName p.email p.message).length
        · simp [he, respond]
        · cases nr <;> cases rr <;> simp [he, respond]
  · intro k hk
    unfold handler
    simp only [hip]
    cases hlim : (isRateLimited now unknownKey log).1 with
    | true =>
      simp [isRateLimited_preserves hk]
    | false =>
      cases bd with
      | malformed raw => simp [isRateLimited_preserves hk]
      | parsed p =>
        by_cases he : 0 < (validate p.firstName p.email p.message).length
        · simp [he, isRateLimited_preserves hk]
        · cases nr <;> cases rr <;> simp [he, isRateLimited_preserves hk]

/-- C10 witness: with the shared `unknown` entry at the cap, a header-less
POST from any client receives 429. -/
theorem C10_unknown_key_witness :
    (handler none 0 [(unknownKey, ⟨10, 0⟩)] (.ok "x") (.ok "x")
      ⟨"POST", none, .malformed ""⟩).response.statusCode = 429 :=
  ((C10_unknown_key none 0 [(unknownKey, ⟨10, 0⟩)] (.ok "x") (.ok "x")
      ⟨"POST", none, .malformed ""⟩ rfl (Or.inl rfl)).2.1).mpr (by decide)

end AgriNova
